import Mathlib

/-!
Verification development for the listless mailing-list agent.

The Go sources are embedded shallowly: pure functions become Lean
functions, bolt buckets become association lists, Go pointers become
Option values, and fallible operations return an explicit error
component. External libraries (validator, crypto/sha256, net/mail,
encoding/json, imapclient, gopher-lua) are modelled either as explicit
function parameters or, where a claim depends on their documented
behaviour, as definitions whose doc comment names the modelled part.
-/

/- ### Character and string utilities (ASCII model) -/

/-- Whitespace characters for the purposes of trimming. Go defers to
unicode.IsSpace; the ASCII subset suffices for the e-mail address model. -/
def isSpaceChar (c : Char) : Bool :=
  c == ' ' || c == '\t' || c == '\n' || c == '\r'

/-- Lowercasing of a single character, ASCII model of strings.ToLower. -/
def lowerChar (c : Char) : Char :=
  match c with
  | 'A' => 'a' | 'B' => 'b' | 'C' => 'c' | 'D' => 'd' | 'E' => 'e'
  | 'F' => 'f' | 'G' => 'g' | 'H' => 'h' | 'I' => 'i' | 'J' => 'j'
  | 'K' => 'k' | 'L' => 'l' | 'M' => 'm' | 'N' => 'n' | 'O' => 'o'
  | 'P' => 'p' | 'Q' => 'q' | 'R' => 'r' | 'S' => 's' | 'T' => 't'
  | 'U' => 'u' | 'V' => 'v' | 'W' => 'w' | 'X' => 'x' | 'Y' => 'y'
  | 'Z' => 'z'
  | other => other

/-- Characters admitted in a canonical e-mail address by the model
validator: lowercase letters, digits, and the usual address symbols. -/
def allowedEmailChars : List Char :=
  ['a', 'b', 'c', 'd', 'e', 'f', 'g', 'h', 'i', 'j', 'k', 'l', 'm',
   'n', 'o', 'p', 'q', 'r', 's', 't', 'u', 'v', 'w', 'x', 'y', 'z',
   '0', '1', '2', '3', '4', '5', '6', '7', '8', '9',
   '@', '.', '-', '_', '+']

def isAllowedEmailChar (c : Char) : Bool :=
  allowedEmailChars.contains c

/-- Trimming of leading and trailing whitespace, model of strings.TrimSpace. -/
def trimChars (l : List Char) : List Char :=
  ((l.dropWhile isSpaceChar).reverse.dropWhile isSpaceChar).reverse

def lowerChars (l : List Char) : List Char :=
  l.map lowerChar

/-- Shape check of the model validator: every character canonical, exactly
one separating at-sign, and nonempty local part and domain. -/
def validEmailShape (l : List Char) : Bool :=
  l.all isAllowedEmailChar && (l.count '@' == 1)
    && (l.head? != some '@') && (l.getLast? != some '@')

/-- Modelled from the spec: normaliseEmail (src/email.go lines 205-208)
lowercases its input with strings.ToLower and then applies
validator.NormalizeEmail from the external github.com/dchest/validator
package. Following the spec, the external validator is modelled as
whitespace trimming plus a canonical-shape check, returning the empty
string when the input cannot be canonicalised. -/
def normaliseEmail (email : String) : String :=
  if validEmailShape (trimChars (lowerChars email.data)) then
    String.mk (trimChars (lowerChars email.data))
  else ""

theorem lowerChar_fixed_of_allowed {c : Char} (h : isAllowedEmailChar c = true) :
    lowerChar c = c := by
  have hmem : c ∈ allowedEmailChars := by
    simpa [isAllowedEmailChar, List.contains, List.elem_iff] using h
  have hall : ∀ x ∈ allowedEmailChars, lowerChar x = x := by decide
  exact hall c hmem

theorem not_space_of_allowed {c : Char} (h : isAllowedEmailChar c = true) :
    isSpaceChar c = false := by
  have hmem : c ∈ allowedEmailChars := by
    simpa [isAllowedEmailChar, List.contains, List.elem_iff] using h
  have hall : ∀ x ∈ allowedEmailChars, isSpaceChar x = false := by decide
  exact hall c hmem

theorem dropWhile_eq_self_of_no_space {l : List Char}
    (h : ∀ c ∈ l, isSpaceChar c = false) :
    l.dropWhile isSpaceChar = l := by
  cases l with
  | nil => rfl
  | cons a t =>
    have ha : isSpaceChar a = false := h a (List.mem_cons_self a t)
    simp [List.dropWhile_cons, ha]

theorem trimChars_eq_self_of_no_space {l : List Char}
    (h : ∀ c ∈ l, isSpaceChar c = false) :
    trimChars l = l := by
  unfold trimChars
  rw [dropWhile_eq_self_of_no_space h]
  rw [dropWhile_eq_self_of_no_space (fun c hc => h c (List.mem_reverse.mp hc))]
  exact List.reverse_reverse l

theorem map_eq_self_of_fixed {l : List Char} {f : Char → Char}
    (h : ∀ c ∈ l, f c = c) : l.map f = l := by
  induction l with
  | nil => rfl
  | cons a t ih =>
    simp only [List.map_cons]
    rw [h a (List.mem_cons_self a t), ih (fun c hc => h c (List.mem_cons_of_mem a hc))]

theorem allowed_of_validShape {l : List Char} (h : validEmailShape l = true) :
    ∀ c ∈ l, isAllowedEmailChar c = true := by
  unfold validEmailShape at h
  simp only [Bool.and_eq_true, List.all_eq_true] at h
  exact h.1.1.1

/-- Idempotence of the model normaliser on its canonical outputs. -/
theorem normaliseEmail_idem (a : String) :
    normaliseEmail (normaliseEmail a) = normaliseEmail a := by
  by_cases h : validEmailShape (trimChars (lowerChars a.data)) = true
  · have hall := allowed_of_validShape h
    have h1 : normaliseEmail a = String.mk (trimChars (lowerChars a.data)) := by
      unfold normaliseEmail
      rw [if_pos h]
    have hlower : lowerChars (trimChars (lowerChars a.data))
        = trimChars (lowerChars a.data) :=
      map_eq_self_of_fixed (fun c hc => lowerChar_fixed_of_allowed (hall c hc))
    have htrim : trimChars (trimChars (lowerChars a.data))
        = trimChars (lowerChars a.data) :=
      trimChars_eq_self_of_no_space (fun c hc => not_space_of_allowed (hall c hc))
    rw [h1]
    unfold normaliseEmail
    show (if validEmailShape (trimChars (lowerChars (trimChars (lowerChars a.data))))
        = true then String.mk (trimChars (lowerChars (trimChars (lowerChars a.data))))
      else "") = String.mk (trimChars (lowerChars a.data))
    rw [hlower, htrim, if_pos h]
  · have h1 : normaliseEmail a = "" := by
      unfold normaliseEmail
      rw [if_neg h]
    rw [h1]
    decide

/- ### Error values (the Go error constants of the package) -/

/-- Error values returned by the embedded Go functions. Each constructor
stands for one of the package error constants, or for a documented error
of an external library. -/
inductive GoError where
  | emailUnparseable
  | parseFailed
  | luaLoadError
  | luaCallError
  | errValNotStringOrNil
  | okNotBoolean
  | missingRecipients
  | parseAddrFailed
  | transactionNotFound
  | expiredTransaction
  | transactionNotReady
  | invalidUnmarshal
deriving DecidableEq, Repr

/- ### parseExpressiveEmail (src/unnamed/part_001 lines 282-303) -/

/-- Index of the last occurrence of a character, model of strings.LastIndex
restricted to a single character in an ASCII string. -/
def lastIdxOfAux (c : Char) : List Char → Nat → Option Nat
  | [], _ => none
  | h :: t, i =>
    match lastIdxOfAux c t (i + 1) with
    | some j => some j
    | none => if h == c then some i else none

def lastIdxOf (l : List Char) (c : Char) : Option Nat :=
  lastIdxOfAux c l 0

/-- parseExpressiveEmail: given a line such as an address in display form,
return the canonical bare address; a bare address is returned as itself.
Faithful to src/unnamed/part_001 lines 282-303 with byte slicing modelled
as character slicing (ASCII). -/
def parseExpressiveEmail (emailLine : String) : String × Option GoError :=
  let l := String.mk (trimChars emailLine.data)
  let normE := normaliseEmail l
  if normE != "" then (normE, none)
  else if !(l.data.contains '<' && l.data.contains '>') then
    (l, some GoError.emailUnparseable)
  else
    match lastIdxOf l.data '<', lastIdxOf l.data '>' with
    | some openBr, some closBr =>
      if openBr < closBr then
        let parsed := String.mk ((l.data.drop (openBr + 1)).take (closBr - (openBr + 1)))
        let normed := normaliseEmail parsed
        if normed == "" then (l, some GoError.emailUnparseable)
        else (normed, none)
      else (l, some GoError.emailUnparseable)
    | _, _ => (l, some GoError.emailUnparseable)

/- ### Headers (net/textproto MIMEHeader as used via email.Headers) -/

/-- Headers are an association list from key to value. The Go library
canonicalises MIME keys in both Get and Set; since every access in the
embedded code uses the same literal key, canonicalisation is the identity
for the modelled accesses and is omitted. -/
def HeadersMap := List (String × String)
deriving DecidableEq

/-- textproto Get: first value for the key, empty string when absent. -/
def headersGet (h : HeadersMap) (k : String) : String :=
  match h.find? (fun p => p.1 == k) with
  | some p => p.2
  | none => ""

/-- textproto Set: replace all values for the key by the single value. -/
def headersSet (h : HeadersMap) (k v : String) : HeadersMap :=
  (k, v) :: h.filter (fun p => p.1 != k)

/- ### The Email wrapper (src/unnamed/part_001 lines 21-217, 344-381) -/

/-- Fields of the parsed jordan-wright email.Email object that the
embedded code reads or writes. -/
structure RawEmail where
  From : String
  To : List String
  Cc : List String
  Bcc : List String
  Headers : HeadersMap
deriving DecidableEq

/-- Email is the wrapper over the parsed message: the underlying fields
plus the recipient-roster set inRecipientLists (a Go map used as a set,
modelled as a list) and the derived Sender. -/
structure Email where
  From : String
  To : List String
  Cc : List String
  Bcc : List String
  Headers : HeadersMap
  inRecipientLists : List String
  Sender : String
deriving DecidableEq

/-- WrapEmail (src/unnamed/part_001 lines 31-38): share the parsed fields,
start with an empty roster set, and derive Sender from From. -/
def WrapEmail (e : RawEmail) : Email :=
  { From := e.From
    To := e.To
    Cc := e.Cc
    Bcc := e.Bcc
    Headers := e.Headers
    inRecipientLists := []
    Sender := normaliseEmail (parseExpressiveEmail e.From).1 }

def Email.isRecipient (em : Email) (email : String) : Bool :=
  em.inRecipientLists.contains email

/-- AddToRecipient (src/unnamed/part_001 lines 96-105). -/
def Email.AddToRecipient (em : Email) (email : String) : Email :=
  let e := normaliseEmail email
  if e == "" then em
  else if em.isRecipient e then em
  else { em with To := em.To ++ [e], inRecipientLists := e :: em.inRecipientLists }

/-- AddCcRecipient (src/unnamed/part_001 lines 109-118). -/
def Email.AddCcRecipient (em : Email) (email : String) : Email :=
  let e := normaliseEmail email
  if e == "" then em
  else if em.isRecipient e then em
  else { em with Cc := em.Cc ++ [e], inRecipientLists := e :: em.inRecipientLists }

/-- AddBccRecipient (src/unnamed/part_001 lines 122-131). -/
def Email.AddBccRecipient (em : Email) (email : String) : Email :=
  let e := normaliseEmail email
  if e == "" then em
  else if em.isRecipient e then em
  else { em with Bcc := em.Bcc ++ [e], inRecipientLists := e :: em.inRecipientLists }

/-- AddRecipient is a shortcut for AddBccRecipient. -/
def Email.AddRecipient (em : Email) (email : String) : Email :=
  em.AddBccRecipient email

/-- AddRecipientList iterates AddRecipient over the given addresses
(src/unnamed/part_001 lines 140-155, Go helper goAddRecipientList). -/
def Email.AddRecipientList (em : Email) (emails : List String) : Email :=
  emails.foldl Email.AddRecipient em

/-- ClearRecipients (src/unnamed/part_001 lines 158-163). -/
def Email.ClearRecipients (em : Email) : Email :=
  { em with To := [], Cc := [], Bcc := [], inRecipientLists := [] }

/-- RemoveRecipient (src/unnamed/part_001 lines 170-217): after the roster
membership guard the To list is always filtered; the Cc list is filtered
only when nothing was removed from To, the Bcc list only when nothing was
removed from To or Cc; the address is deleted from the roster set. -/
def Email.RemoveRecipient (em : Email) (email : String) : Email :=
  let e := normaliseEmail email
  if !(em.isRecipient e) then em
  else
    let newTo := em.To.filter (fun x => x != e)
    let removedTo := em.To.contains e
    let newCc := if removedTo then em.Cc else em.Cc.filter (fun x => x != e)
    let removedCc := if removedTo then false else em.Cc.contains e
    let newBcc := if removedTo || removedCc then em.Bcc
      else em.Bcc.filter (fun x => x != e)
    { em with
      To := newTo
      Cc := newCc
      Bcc := newBcc
      inRecipientLists := em.inRecipientLists.filter (fun x => x != e) }

/- ### Email.Send (src/unnamed/part_001 lines 344-381) -/

/-- Normalised, non-empty exclusion set built from the variadic
excludeEmails argument (lines 345-352). -/
def excludedSet (excludeEmails : List String) : List String :=
  (excludeEmails.map normaliseEmail).filter (fun e => e != "")

/-- Merged send-to list: the roster set minus the excluded addresses
(lines 354-360). Go iterates the map in unspecified order; the list-model
order stands for one such order and all statements about it are
membership statements. -/
def sendToList (em : Email) (excludeEmails : List String) : List String :=
  em.inRecipientLists.filter (fun k => !((excludedSet excludeEmails).contains k))

/-- Result of mail.ParseAddress over every entry of the send-to list
(lines 361-367); the first failure aborts. The external net/mail parser
is passed in as parseAddress. -/
def parseAllAddrs (parseAddress : String → Option String) :
    List String → Option (List String)
  | [] => some []
  | a :: t =>
    match parseAddress a with
    | none => none
    | some a2 =>
      match parseAllAddrs parseAddress t with
      | none => none
      | some t2 => some (a2 :: t2)

/-- Send (src/unnamed/part_001 lines 344-381). The smtp address, auth and
message serialisation do not affect which recipients are submitted and
are omitted; the Ok value is the pair handed to smtp.SendMail: the parsed
From address and the final recipient list. The single Go error used both
for an empty recipient list and for an empty From is missingRecipients. -/
def Email.Send (em : Email) (parseAddress : String → Option String)
    (excludeEmails : List String) : Except GoError (String × List String) :=
  let tos := sendToList em excludeEmails
  match parseAllAddrs parseAddress tos with
  | none => Except.error GoError.parseAddrFailed
  | some to2 =>
    if em.From == "" || to2.isEmpty then Except.error GoError.missingRecipients
    else
      match parseAddress em.From with
      | none => Except.error GoError.parseAddrFailed
      | some from2 => Except.ok (from2, to2)

/- ### Lua values and the handler contract (src/unnamed/part_011) -/

/-- Shape of a value returned from the Lua runtime, as far as the engine
inspects it: nil, boolean, string, or anything else. -/
inductive LuaValue where
  | nil
  | boolean (b : Bool)
  | str (s : String)
  | other
deriving DecidableEq, Repr

def LuaValue.isStr : LuaValue → Bool
  | .str _ => true
  | _ => false

def LuaValue.isNil : LuaValue → Bool
  | .nil => true
  | _ => false

def LuaValue.isBool : LuaValue → Bool
  | .boolean _ => true
  | _ => false

/-- okv.String() == "true" on a boolean Lua value. -/
def LuaValue.isTrueBool : LuaValue → Bool
  | .boolean true => true
  | _ => false

/-- Observable outcome of one execution of the user Lua script. The
script is untrusted external code that mutates the message in place, so
its effect is the resulting Email value emOut together with the returned
stack values; loading or calling the script may instead fail. -/
structure LuaRun where
  emOut : Email
  loadErr : Bool
  callErr : Bool
  ret2 : LuaValue
  ret3 : LuaValue
deriving DecidableEq

/-- ProcessMail (src/unnamed/part_011 lines 130-179): run NormaliseRecipients
and the eventLoop script (abstracted by run), then type-check the second
and third returned values. The first returned value is never inspected by
the Go code. Returns the ok flag and the error, as the Go pair. -/
def ProcessMail (run : LuaRun) : Bool × Option GoError :=
  if run.loadErr then (false, some GoError.luaLoadError)
  else if run.callErr then (false, some GoError.luaCallError)
  else if !(run.ret3.isStr || run.ret3.isNil) then
    (false, some GoError.errValNotStringOrNil)
  else if !run.ret2.isBool then (false, some GoError.okNotBoolean)
  else if !run.ret2.isTrueBool then (false, none)
  else (true, none)

/- ### Engine.Handler (src/unnamed/part_011 lines 184-226) -/

/-- Configuration fields read by the engine paths under study. -/
structure Config where
  ListAddress : String
  SMTPUsername : String
  SMTPPassword : String
  SMTPHost : String
  smtpAddr : String
  PollFrequency : Nat
  MessageFrequency : Nat
deriving DecidableEq

/-- Data handed to smtp.SendMail on the submission path. -/
structure Submission where
  fromAddr : String
  rcpts : List String
  msg : Email
deriving DecidableEq

/-- Observable outcome of one Handler call: whether the script ran,
whether the SMTP submission stage was reached, what was submitted, and
the returned error. -/
structure HandlerResult where
  scriptInvoked : Bool
  sendAttempted : Bool
  submitted : Option Submission
  err : Option GoError
deriving DecidableEq

/-- Handler (src/unnamed/part_011 lines 184-226): parse the message, drop
it when its sent-from-listless header equals the configured ListAddress,
otherwise wrap it and run ProcessMail; on ok, stamp the header and submit
via Send with the list address excluded. The IMAP reader is abstracted as
the parse result, and the Lua execution as run. -/
def Handler (cfg : Config) (parsed : Option RawEmail) (run : LuaRun)
    (parseAddress : String → Option String) : HandlerResult :=
  match parsed with
  | none =>
    { scriptInvoked := false
      sendAttempted := false
      submitted := none
      err := some GoError.parseFailed }
  | some mail =>
    if headersGet mail.Headers "sent-from-listless" == cfg.ListAddress then
      { scriptInvoked := false
        sendAttempted := false
        submitted := none
        err := none }
    else
      match ProcessMail run with
      | (_, some e) =>
        { scriptInvoked := true
          sendAttempted := false
          submitted := none
          err := some e }
      | (false, none) =>
        { scriptInvoked := true
          sendAttempted := false
          submitted := none
          err := none }
      | (true, none) =>
        let emSend := { run.emOut with
          Headers := headersSet run.emOut.Headers "sent-from-listless" cfg.ListAddress }
        match emSend.Send parseAddress [cfg.ListAddress] with
        | Except.error e =>
          { scriptInvoked := true
            sendAttempted := true
            submitted := none
            err := some e }
        | Except.ok (from2, to2) =>
          { scriptInvoked := true
            sendAttempted := true
            submitted := some { fromAddr := from2, rcpts := to2, msg := emSend }
            err := none }

/- ### Engine.DeliveryLoop sleep selection (src/unnamed/part_011 lines 229-259) -/

inductive SleepKind where
  | pollFreq
  | messageFreq
deriving DecidableEq, Repr

/-- Sleep chosen at the end of one DeliveryLoop iteration from the pair
returned by imapclient.DeliverOne (lines 248-256): PollFrequency on any
error, MessageFrequency when at least one message was delivered, else
PollFrequency. -/
def deliveryLoopSleep (n : Nat) (errOccurred : Bool) : SleepKind :=
  if errOccurred then SleepKind.pollFreq
  else if n > 0 then SleepKind.messageFreq
  else SleepKind.pollFreq

/-- Modelled from the spec: imapclient.DeliverOne is external library code
(only its call site is in this repository). It fetches at most one unread
message, invokes the deliver callback on it, and returns the number of
messages for which the callback returned nil together with the error
otherwise; a callback that returns nil after dropping the message counts
as a delivery. The callback outcome for the fetched message, when any,
is given as a HandlerResult. -/
def deliverOneOutcome (fetched : Option HandlerResult) : Nat × Bool :=
  match fetched with
  | none => (0, false)
  | some r =>
    match r.err with
    | some _ => (0, true)
    | none => (1, false)

/-- Sleep chosen for a whole cycle given the handler outcome for the
fetched message, if one was fetched. -/
def cycleSleep (fetched : Option HandlerResult) : SleepKind :=
  deliveryLoopSleep (deliverOneOutcome fetched).1 (deliverOneOutcome fetched).2

/- ### ListlessKVStore (src/database_keyvaluestores.go) -/

/-- A bolt bucket of string pairs, modelled as an association list. -/
def KVBucket := List (String × String)
deriving DecidableEq

/-- The kvstores parent bucket: named child buckets. -/
def KVBuckets := List (String × KVBucket)
deriving DecidableEq

def kvbucketsGet (db : KVBuckets) (name : String) : Option KVBucket :=
  match db.find? (fun p => p.1 == name) with
  | some p => some p.2
  | none => none

def kvbucketsSet (db : KVBuckets) (name : String) (b : KVBucket) : KVBuckets :=
  (name, b) :: db.filter (fun p => p.1 != name)

def kvbucketsDel (db : KVBuckets) (name : String) : KVBuckets :=
  db.filter (fun p => p.1 != name)

/-- Handle over a named child bucket, carrying the destroyed flag. -/
structure ListlessKVStore where
  destroyed : Bool
  BucketName : String
deriving DecidableEq

/-- Observable effect classification of one KV operation: normal
completion, the destroyed-handle warning path, a logged bolt error, or a
nil-bucket dereference (a Go panic, reachable when the underlying child
bucket no longer exists and the operation does not guard for it). -/
inductive KVEffect where
  | ok
  | warnedDestroyed
  | loggedError
  | nilBucketPanic
deriving DecidableEq, Repr

/-- Store (src/database_keyvaluestores.go lines 37-50): guarded by the
destroyed flag; writes through the child bucket. -/
def ListlessKVStore.Store (kv : ListlessKVStore) (db : KVBuckets)
    (key value : String) : KVBuckets × KVEffect :=
  if kv.destroyed then (db, KVEffect.warnedDestroyed)
  else
    match kvbucketsGet db kv.BucketName with
    | none => (db, KVEffect.nilBucketPanic)
    | some b =>
      (kvbucketsSet db kv.BucketName ((key, value) :: b.filter (fun p => p.1 != key)),
        KVEffect.ok)

/-- Retrieve (lines 53-72): guarded by the destroyed flag; empty string
when the key is absent. -/
def ListlessKVStore.Retrieve (kv : ListlessKVStore) (db : KVBuckets)
    (key : String) : String × KVEffect :=
  if kv.destroyed then ("", KVEffect.warnedDestroyed)
  else
    match kvbucketsGet db kv.BucketName with
    | none => ("", KVEffect.nilBucketPanic)
    | some b =>
      match b.find? (fun p => p.1 == key) with
      | some p => (p.2, KVEffect.ok)
      | none => ("", KVEffect.ok)

/-- Delete (lines 75-88): guarded by the destroyed flag; no error when
the key is absent. -/
def ListlessKVStore.Delete (kv : ListlessKVStore) (db : KVBuckets)
    (key : String) : KVBuckets × KVEffect :=
  if kv.destroyed then (db, KVEffect.warnedDestroyed)
  else
    match kvbucketsGet db kv.BucketName with
    | none => (db, KVEffect.nilBucketPanic)
    | some b =>
      (kvbucketsSet db kv.BucketName (b.filter (fun p => p.1 != key)), KVEffect.ok)

/-- Keys (lines 91-112): the source performs no destroyed-flag check; it
opens the child bucket and iterates it. When the bucket was already
deleted the bolt handle is nil and iterating it dereferences nil. -/
def ListlessKVStore.Keys (kv : ListlessKVStore) (db : KVBuckets) :
    List String × KVEffect :=
  match kvbucketsGet db kv.BucketName with
  | none => ([], KVEffect.nilBucketPanic)
  | some b => (b.map (fun p => p.1), KVEffect.ok)

/-- Destroy (lines 117-126): set the destroyed flag and delete the child
bucket; a second Destroy finds no bucket, so bolt DeleteBucket reports an
error which is logged. -/
def ListlessKVStore.Destroy (kv : ListlessKVStore) (db : KVBuckets) :
    ListlessKVStore × KVBuckets × KVEffect :=
  let kv2 := { kv with destroyed := true }
  match kvbucketsGet db kv.BucketName with
  | none => (kv2, db, KVEffect.loggedError)
  | some _ => (kv2, kvbucketsDel db kv.BucketName, KVEffect.ok)

/- ### MailTransaction (src/database_transactions.go) -/

/-- MailTransaction (src/database_transactions.go lines 28-52). Go
time.Time is modelled as seconds, a Nat. -/
structure MailTransaction where
  Permitted : List String
  Persists : Bool
  RefCode : String
  Expires : Nat
  ScriptName : String
  ScriptHook : String
deriving DecidableEq

/-- isExpired (lines 84-86): time.Now().After(Expires). The current time
is passed explicitly. -/
def MailTransaction.isExpired (trans : MailTransaction) (now : Nat) : Bool :=
  trans.Expires < now

/-- isPermitted (lines 89-97): normalise the sender and scan the
Permitted list; an empty list yields false. -/
def MailTransaction.isPermitted (trans : MailTransaction) (email : String) : Bool :=
  trans.Permitted.contains (normaliseEmail email)

/-- Validate (lines 74-82): false when expired, else true exactly when
the message sender is permitted. -/
def MailTransaction.Validate (trans : MailTransaction) (now : Nat)
    (email : Email) : Bool :=
  if trans.isExpired now then false
  else if trans.isPermitted email.Sender then true
  else false

/-- The transactions bolt bucket: hashed secret to stored JSON bytes,
both modelled as strings. -/
def TransBucket := List (String × String)
deriving DecidableEq

def transBucketGet (b : TransBucket) (k : String) : Option String :=
  match b.find? (fun p => p.1 == k) with
  | some p => some p.2
  | none => none

/-- json.Unmarshal into a typed pointer destination. The Go library
first checks that the destination is a non-nil pointer and reports
InvalidUnmarshalError otherwise (documented behaviour of encoding/json);
only then does it decode, the decoder being abstracted as decode. The
destination pointer is modelled as an Option: none is the nil pointer. -/
def jsonUnmarshal (decode : String → Except GoError MailTransaction)
    (data : String) (dest : Option MailTransaction) :
    Except GoError MailTransaction :=
  match dest with
  | none => Except.error GoError.invalidUnmarshal
  | some _ => decode data

/-- GetTransaction (src/database_transactions.go lines 104-118). The named
return value trans is a pointer that is never allocated before the
json.Unmarshal call, so it is the nil pointer there; sha256 hashing of
the secret is the external crypto primitive hashSecret, passed in. On a
hit the unmarshal error is propagated; the pointer returned on the
success path is still the untouched named return value. -/
def GetTransaction (transactions : TransBucket) (hashSecret : String → String)
    (decode : String → Except GoError MailTransaction) (secret : String) :
    Option MailTransaction × Option GoError :=
  let trans : Option MailTransaction := none
  match transBucketGet transactions (hashSecret secret) with
  | none => (none, some GoError.transactionNotFound)
  | some v =>
    match jsonUnmarshal decode v trans with
    | Except.error e => (none, some e)
    | Except.ok _ => (trans, none)

/- ### Roster operations and the disjointness invariant -/

/-- One scripted roster operation on the message object. -/
inductive RosterOp where
  | addTo (a : String)
  | addCc (a : String)
  | addBcc (a : String)
  | add (a : String)
  | addList (l : List String)
  | remove (a : String)
  | clear
deriving DecidableEq

def applyRosterOp (em : Email) : RosterOp → Email
  | .addTo a => em.AddToRecipient a
  | .addCc a => em.AddCcRecipient a
  | .addBcc a => em.AddBccRecipient a
  | .add a => em.AddRecipient a
  | .addList l => em.AddRecipientList l
  | .remove a => em.RemoveRecipient a
  | .clear => em.ClearRecipients

def applyRosterOps (em : Email) (ops : List RosterOp) : Email :=
  ops.foldl applyRosterOp em

/-- Roster Disjointness: the three sequences are duplicate-free and
pairwise disjoint, and their union is exactly the inRecipientLists set. -/
def RosterInv (em : Email) : Prop :=
  em.To.Nodup ∧ em.Cc.Nodup ∧ em.Bcc.Nodup
  ∧ (∀ x, x ∈ em.To → x ∉ em.Cc)
  ∧ (∀ x, x ∈ em.To → x ∉ em.Bcc)
  ∧ (∀ x, x ∈ em.Cc → x ∉ em.Bcc)
  ∧ (∀ x, x ∈ em.inRecipientLists ↔ x ∈ em.To ∨ x ∈ em.Cc ∨ x ∈ em.Bcc)

theorem isRecipient_iff {em : Email} {e : String} :
    em.isRecipient e = true ↔ e ∈ em.inRecipientLists := by
  simp [Email.isRecipient, List.contains, List.elem_iff]

theorem mem_filter_ne {l : List String} {x e : String} :
    x ∈ l.filter (fun y => y != e) ↔ x ∈ l ∧ x ≠ e := by
  simp [List.mem_filter]

theorem filter_ne_eq_self_of_not_mem {l : List String} {e : String} (h : e ∉ l) :
    l.filter (fun y => y != e) = l := by
  apply List.filter_eq_self.mpr
  intro x hx
  simp only [bne_iff_ne, ne_eq, decide_eq_true_eq]
  intro hxe
  exact h (hxe ▸ hx)

theorem rosterInv_AddToRecipient {em : Email} (h : RosterInv em) (a : String) :
    RosterInv (em.AddToRecipient a) := by
  obtain ⟨hTo, hCc, hBcc, hTC, hTB, hCB, hset⟩ := h
  unfold Email.AddToRecipient
  by_cases h1 : (normaliseEmail a == "") = true
  · rw [if_pos h1]
    exact ⟨hTo, hCc, hBcc, hTC, hTB, hCB, hset⟩
  · rw [if_neg h1]
    by_cases h2 : em.isRecipient (normaliseEmail a) = true
    · rw [if_pos h2]
      exact ⟨hTo, hCc, hBcc, hTC, hTB, hCB, hset⟩
    · rw [if_neg h2]
      have hnot : normaliseEmail a ∉ em.inRecipientLists := by
        intro hmem
        exact h2 (isRecipient_iff.mpr hmem)
      have hnotTo : normaliseEmail a ∉ em.To :=
        fun hm => hnot ((hset _).mpr (Or.inl hm))
      have hnotCc : normaliseEmail a ∉ em.Cc :=
        fun hm => hnot ((hset _).mpr (Or.inr (Or.inl hm)))
      have hnotBcc : normaliseEmail a ∉ em.Bcc :=
        fun hm => hnot ((hset _).mpr (Or.inr (Or.inr hm)))
      refine ⟨?_, hCc, hBcc, ?_, ?_, hCB, ?_⟩
      · simp [List.nodup_append, hTo, hnotTo]
      · intro x hx
        rcases List.mem_append.mp hx with hx | hx
        · exact hTC x hx
        · simp only [List.mem_singleton] at hx
          subst hx
          exact hnotCc
      · intro x hx
        rcases List.mem_append.mp hx with hx | hx
        · exact hTB x hx
        · simp only [List.mem_singleton] at hx
          subst hx
          exact hnotBcc
      · intro x
        simp only [List.mem_cons, List.mem_append, List.mem_singleton, hset x]
        tauto

theorem rosterInv_AddCcRecipient {em : Email} (h : RosterInv em) (a : String) :
    RosterInv (em.AddCcRecipient a) := by
  obtain ⟨hTo, hCc, hBcc, hTC, hTB, hCB, hset⟩ := h
  unfold Email.AddCcRecipient
  by_cases h1 : (normaliseEmail a == "") = true
  · rw [if_pos h1]
    exact ⟨hTo, hCc, hBcc, hTC, hTB, hCB, hset⟩
  · rw [if_neg h1]
    by_cases h2 : em.isRecipient (normaliseEmail a) = true
    · rw [if_pos h2]
      exact ⟨hTo, hCc, hBcc, hTC, hTB, hCB, hset⟩
    · rw [if_neg h2]
      have hnot : normaliseEmail a ∉ em.inRecipientLists := by
        intro hmem
        exact h2 (isRecipient_iff.mpr hmem)
      have hnotTo : normaliseEmail a ∉ em.To :=
        fun hm => hnot ((hset _).mpr (Or.inl hm))
      have hnotCc : normaliseEmail a ∉ em.Cc :=
        fun hm => hnot ((hset _).mpr (Or.inr (Or.inl hm)))
      have hnotBcc : normaliseEmail a ∉ em.Bcc :=
        fun hm => hnot ((hset _).mpr (Or.inr (Or.inr hm)))
      refine ⟨hTo, ?_, hBcc, ?_, hTB, ?_, ?_⟩
      · simp [List.nodup_append, hCc, hnotCc]
      · intro x hx hmem
        rcases List.mem_append.mp hmem with hm | hm
        · exact hTC x hx hm
        · simp only [List.mem_singleton] at hm
          exact hnotTo (hm ▸ hx)
      · intro x hx
        rcases List.mem_append.mp hx with hx | hx
        · exact hCB x hx
        · simp only [List.mem_singleton] at hx
          subst hx
          exact hnotBcc
      · intro x
        simp only [List.mem_cons, List.mem_append, List.mem_singleton, hset x]
        tauto

theorem rosterInv_AddBccRecipient {em : Email} (h : RosterInv em) (a : String) :
    RosterInv (em.AddBccRecipient a) := by
  obtain ⟨hTo, hCc, hBcc, hTC, hTB, hCB, hset⟩ := h
  unfold Email.AddBccRecipient
  by_cases h1 : (normaliseEmail a == "") = true
  · rw [if_pos h1]
    exact ⟨hTo, hCc, hBcc, hTC, hTB, hCB, hset⟩
  · rw [if_neg h1]
    by_cases h2 : em.isRecipient (normaliseEmail a) = true
    · rw [if_pos h2]
      exact ⟨hTo, hCc, hBcc, hTC, hTB, hCB, hset⟩
    · rw [if_neg h2]
      have hnot : normaliseEmail a ∉ em.inRecipientLists := by
        intro hmem
        exact h2 (isRecipient_iff.mpr hmem)
      have hnotTo : normaliseEmail a ∉ em.To :=
        fun hm => hnot ((hset _).mpr (Or.inl hm))
      have hnotCc : normaliseEmail a ∉ em.Cc :=
        fun hm => hnot ((hset _).mpr (Or.inr (Or.inl hm)))
      have hnotBcc : normaliseEmail a ∉ em.Bcc :=
        fun hm => hnot ((hset _).mpr (Or.inr (Or.inr hm)))
      refine ⟨hTo, hCc, ?_, hTC, ?_, ?_, ?_⟩
      · simp [List.nodup_append, hBcc, hnotBcc]
      · intro x hx hmem
        rcases List.mem_append.mp hmem with hm | hm
        · exact hTB x hx hm
        · simp only [List.mem_singleton] at hm
          exact hnotTo (hm ▸ hx)
      · intro x hx hmem
        rcases List.mem_append.mp hmem with hm | hm
        · exact hCB x hx hm
        · simp only [List.mem_singleton] at hm
          exact hnotCc (hm ▸ hx)
      · intro x
        simp only [List.mem_cons, List.mem_append, List.mem_singleton, hset x]
        tauto

theorem contains_eq_true_iff {l : List String} {e : String} :
    l.contains e = true ↔ e ∈ l := by
  simp [List.contains, List.elem_iff]

/-- Under the invariant, RemoveRecipient acts componentwise: the address
is filtered out of each of the three sequences (at most one of which can
contain it) and out of the roster set. -/
theorem RemoveRecipient_eq_filters {em : Email} (h : RosterInv em) (a : String) :
    em.RemoveRecipient a = { em with
      To := em.To.filter (fun x => x != normaliseEmail a)
      Cc := em.Cc.filter (fun x => x != normaliseEmail a)
      Bcc := em.Bcc.filter (fun x => x != normaliseEmail a)
      inRecipientLists := em.inRecipientLists.filter (fun x => x != normaliseEmail a) } := by
  obtain ⟨hTo, hCc, hBcc, hTC, hTB, hCB, hset⟩ := h
  simp only [Email.RemoveRecipient]
  by_cases h1 : em.isRecipient (normaliseEmail a) = true
  · have hpos : (!em.isRecipient (normaliseEmail a)) = false := by simp [h1]
    rw [hpos]
    simp only [Bool.false_eq_true, if_false]
    have hmem : normaliseEmail a ∈ em.inRecipientLists := isRecipient_iff.mp h1
    rcases (hset _).mp hmem with hin | hin | hin
    · have hct : em.To.contains (normaliseEmail a) = true := contains_eq_true_iff.mpr hin
      have hnCc : normaliseEmail a ∉ em.Cc := hTC _ hin
      have hnBcc : normaliseEmail a ∉ em.Bcc := hTB _ hin
      rw [hct]
      simp only [if_true, Bool.true_or]
      rw [filter_ne_eq_self_of_not_mem hnCc, filter_ne_eq_self_of_not_mem hnBcc]
    · have hnTo : normaliseEmail a ∉ em.To := fun hm => hTC _ hm hin
      have hnBcc : normaliseEmail a ∉ em.Bcc := hCB _ hin
      have hctTo : em.To.contains (normaliseEmail a) = false := by
        rw [Bool.eq_false_iff]
        intro hc
        exact hnTo (contains_eq_true_iff.mp hc)
      have hctCc : em.Cc.contains (normaliseEmail a) = true := contains_eq_true_iff.mpr hin
      rw [hctTo, hctCc]
      simp only [Bool.false_eq_true, if_false, Bool.false_or, if_true]
      rw [filter_ne_eq_self_of_not_mem hnBcc]
    · have hnTo : normaliseEmail a ∉ em.To := fun hm => hTB _ hm hin
      have hnCc : normaliseEmail a ∉ em.Cc := fun hm => hCB _ hm hin
      have hctTo : em.To.contains (normaliseEmail a) = false := by
        rw [Bool.eq_false_iff]
        intro hc
        exact hnTo (contains_eq_true_iff.mp hc)
      have hctCc : em.Cc.contains (normaliseEmail a) = false := by
        rw [Bool.eq_false_iff]
        intro hc
        exact hnCc (contains_eq_true_iff.mp hc)
      rw [hctTo, hctCc]
      simp only [Bool.false_eq_true, if_false, Bool.false_or]
  · have hneg : (!em.isRecipient (normaliseEmail a)) = true := by
      simp [Bool.eq_false_iff.mpr h1]
    rw [hneg]
    simp only [if_true]
    have hnset : normaliseEmail a ∉ em.inRecipientLists :=
      fun hm => h1 (isRecipient_iff.mpr hm)
    have hnTo : normaliseEmail a ∉ em.To := fun hm => hnset ((hset _).mpr (Or.inl hm))
    have hnCc : normaliseEmail a ∉ em.Cc :=
      fun hm => hnset ((hset _).mpr (Or.inr (Or.inl hm)))
    have hnBcc : normaliseEmail a ∉ em.Bcc :=
      fun hm => hnset ((hset _).mpr (Or.inr (Or.inr hm)))
    rw [filter_ne_eq_self_of_not_mem hnTo, filter_ne_eq_self_of_not_mem hnCc,
      filter_ne_eq_self_of_not_mem hnBcc, filter_ne_eq_self_of_not_mem hnset]

theorem rosterInv_RemoveRecipient {em : Email} (h : RosterInv em) (a : String) :
    RosterInv (em.RemoveRecipient a) := by
  rw [RemoveRecipient_eq_filters h a]
  obtain ⟨hTo, hCc, hBcc, hTC, hTB, hCB, hset⟩ := h
  refine ⟨hTo.filter _, hCc.filter _, hBcc.filter _, ?_, ?_, ?_, ?_⟩
  · intro x hx hm
    exact hTC x (mem_filter_ne.mp hx).1 (mem_filter_ne.mp hm).1
  · intro x hx hm
    exact hTB x (mem_filter_ne.mp hx).1 (mem_filter_ne.mp hm).1
  · intro x hx hm
    exact hCB x (mem_filter_ne.mp hx).1 (mem_filter_ne.mp hm).1
  · intro x
    simp only [mem_filter_ne, hset x]
    tauto

theorem rosterInv_ClearRecipients {em : Email} (_h : RosterInv em) :
    RosterInv em.ClearRecipients := by
  unfold Email.ClearRecipients
  refine ⟨List.nodup_nil, List.nodup_nil, List.nodup_nil, ?_, ?_, ?_, ?_⟩ <;> simp

theorem rosterInv_AddRecipient {em : Email} (h : RosterInv em) (a : String) :
    RosterInv (em.AddRecipient a) :=
  rosterInv_AddBccRecipient h a

theorem rosterInv_AddRecipientList {em : Email} (h : RosterInv em)
    (l : List String) : RosterInv (em.AddRecipientList l) := by
  unfold Email.AddRecipientList
  induction l generalizing em with
  | nil => exact h
  | cons a t ih => exact ih (rosterInv_AddRecipient h a)

theorem rosterInv_applyRosterOp {em : Email} (h : RosterInv em) (op : RosterOp) :
    RosterInv (applyRosterOp em op) := by
  cases op with
  | addTo a => exact rosterInv_AddToRecipient h a
  | addCc a => exact rosterInv_AddCcRecipient h a
  | addBcc a => exact rosterInv_AddBccRecipient h a
  | add a => exact rosterInv_AddRecipient h a
  | addList l => exact rosterInv_AddRecipientList h l
  | remove a => exact rosterInv_RemoveRecipient h a
  | clear => exact rosterInv_ClearRecipients h

theorem rosterInv_applyRosterOps {em : Email} (h : RosterInv em)
    (ops : List RosterOp) : RosterInv (applyRosterOps em ops) := by
  unfold applyRosterOps
  induction ops generalizing em with
  | nil => exact h
  | cons op t ih => exact ih (rosterInv_applyRosterOp h op)

/-- Under the invariant, adding an address already present in any of the
three sequences is a no-op for every add operation. -/
theorem add_noop_of_present {em : Email} (h : RosterInv em) (a : String)
    (hp : normaliseEmail a ∈ em.To ∨ normaliseEmail a ∈ em.Cc
      ∨ normaliseEmail a ∈ em.Bcc) :
    em.AddToRecipient a = em ∧ em.AddCcRecipient a = em
    ∧ em.AddBccRecipient a = em ∧ em.AddRecipient a = em := by
  obtain ⟨hTo, hCc, hBcc, hTC, hTB, hCB, hset⟩ := h
  have hmem : normaliseEmail a ∈ em.inRecipientLists := (hset _).mpr hp
  have hrec : em.isRecipient (normaliseEmail a) = true := isRecipient_iff.mpr hmem
  have hToEq : em.AddToRecipient a = em := by
    unfold Email.AddToRecipient
    by_cases h1 : (normaliseEmail a == "") = true
    · rw [if_pos h1]
    · rw [if_neg h1, if_pos hrec]
  have hCcEq : em.AddCcRecipient a = em := by
    unfold Email.AddCcRecipient
    by_cases h1 : (normaliseEmail a == "") = true
    · rw [if_pos h1]
    · rw [if_neg h1, if_pos hrec]
  have hBccEq : em.AddBccRecipient a = em := by
    unfold Email.AddBccRecipient
    by_cases h1 : (normaliseEmail a == "") = true
    · rw [if_pos h1]
    · rw [if_neg h1, if_pos hrec]
  exact ⟨hToEq, hCcEq, hBccEq, hBccEq⟩

/- ### Claim theorems -/

/-- C5 (amended): starting from any message state that satisfies Roster
Disjointness (for example a wrapped empty message, or one whose roster
has been rebuilt by NormaliseRecipients), any finite sequence of
AddToRecipient, AddCcRecipient, AddBccRecipient, AddRecipient,
AddRecipientList, RemoveRecipient and ClearRecipients preserves the
invariant: the three sequences stay pairwise disjoint and duplicate
free, their union equals the inRecipientLists set, adding an address
already present in any of the three sequences is a no-op, and
RemoveRecipient removes the address from the at most one sequence
containing it and from the set. The freshly wrapped message of the
original claim does not satisfy the invariant in general, because
WrapEmail starts with an empty set while the parsed To, Cc and Bcc may
be nonempty; see the counterexample. -/
theorem c5_roster_invariant_amended (em : Email) (ops : List RosterOp)
    (h : RosterInv em) :
    RosterInv (applyRosterOps em ops)
    ∧ (∀ a, (normaliseEmail a ∈ (applyRosterOps em ops).To
        ∨ normaliseEmail a ∈ (applyRosterOps em ops).Cc
        ∨ normaliseEmail a ∈ (applyRosterOps em ops).Bcc) →
        (applyRosterOps em ops).AddToRecipient a = applyRosterOps em ops
        ∧ (applyRosterOps em ops).AddCcRecipient a = applyRosterOps em ops
        ∧ (applyRosterOps em ops).AddBccRecipient a = applyRosterOps em ops
        ∧ (applyRosterOps em ops).AddRecipient a = applyRosterOps em ops)
    ∧ (∀ a, (applyRosterOps em ops).RemoveRecipient a
        = { applyRosterOps em ops with
            To := (applyRosterOps em ops).To.filter (fun x => x != normaliseEmail a)
            Cc := (applyRosterOps em ops).Cc.filter (fun x => x != normaliseEmail a)
            Bcc := (applyRosterOps em ops).Bcc.filter (fun x => x != normaliseEmail a)
            inRecipientLists := (applyRosterOps em ops).inRecipientLists.filter
              (fun x => x != normaliseEmail a) }) := by
  have hinv := rosterInv_applyRosterOps h ops
  exact ⟨hinv, fun a hp => add_noop_of_present hinv a hp,
    fun a => RemoveRecipient_eq_filters hinv a⟩

/-- Raw message with no fields set, standing for an empty parsed mail. -/
def emptyRawEmail : RawEmail :=
  { From := "", To := [], Cc := [], Bcc := [], Headers := [] }

theorem rosterInv_WrapEmail_empty : RosterInv (WrapEmail emptyRawEmail) := by
  refine ⟨List.nodup_nil, List.nodup_nil, List.nodup_nil, ?_, ?_, ?_, ?_⟩ <;>
    simp [WrapEmail, emptyRawEmail]

/-- Witness for C5: the amended theorem applied to the wrapped empty
message and one concrete operation sequence. -/
theorem c5_roster_invariant_witness :
    RosterInv (applyRosterOps (WrapEmail emptyRawEmail)
      [RosterOp.addTo "a@x.com", RosterOp.addCc "b@x.com",
        RosterOp.remove "a@x.com"]) :=
  (c5_roster_invariant_amended (WrapEmail emptyRawEmail)
    [RosterOp.addTo "a@x.com", RosterOp.addCc "b@x.com",
      RosterOp.remove "a@x.com"] rosterInv_WrapEmail_empty).1

/-- Raw message whose parsed To already holds an address, as any inbound
mail with a To header does. -/
def rawEmailWithTo : RawEmail :=
  { From := "bob@x.com", To := ["a@x.com"], Cc := [], Bcc := [], Headers := [] }

/-- Counterexample for C5 as stated: on a freshly wrapped message whose
underlying mail already carries a To entry, the union of the three
sequences differs from the (empty) inRecipientLists set even before any
operation, and adding the already-present address is not a no-op: the
address is appended to To a second time. -/
theorem c5_fresh_wrap_counterexample :
    "a@x.com" ∈ (WrapEmail rawEmailWithTo).To
    ∧ "a@x.com" ∉ (WrapEmail rawEmailWithTo).inRecipientLists
    ∧ Email.AddToRecipient (WrapEmail rawEmailWithTo) "a@x.com"
        ≠ WrapEmail rawEmailWithTo
    ∧ (Email.AddToRecipient (WrapEmail rawEmailWithTo) "a@x.com").To
        = ["a@x.com", "a@x.com"] := by decide

/-- C6: e-mail address normalisation is idempotent, and the empty string
(denoting a value that could not be canonicalised) is itself a fixed
point. The normaliser is modelled from the spec because
validator.NormalizeEmail lives in an external dependency. -/
theorem c6_normalise_idempotent (a : String) :
    normaliseEmail (normaliseEmail a) = normaliseEmail a
    ∧ normaliseEmail "" = "" :=
  ⟨normaliseEmail_idem a, by decide⟩

/-- Anchor values from the repository test TestNormalise
(src/unnamed/part_000) and spec scenario S1, checked against the model
normaliser. -/
theorem normaliseEmail_anchor_values :
    normaliseEmail "cathal@garvey.me" = "cathal@garvey.me"
    ∧ normaliseEmail "Cathal@garvey.me" = "cathal@garvey.me"
    ∧ normaliseEmail "cathal@formalabs.org" = "cathal@formalabs.org" := by
  decide

theorem headersGet_headersSet (h : HeadersMap) (k v : String) :
    headersGet (headersSet h k v) k = v := by
  simp [headersGet, headersSet, List.find?]

/-- C1: a message whose sent-from-listless header equals the configured
ListAddress is dropped by Handler before the script runs and nothing is
submitted; and every submission carries the sent-from-listless header
stamped to ListAddress before smtp.SendMail is invoked. -/
theorem c1_selfloop_and_stamp (cfg : Config) (mail : RawEmail) (run : LuaRun)
    (parseAddress : String → Option String) :
    (headersGet mail.Headers "sent-from-listless" = cfg.ListAddress →
      (Handler cfg (some mail) run parseAddress).scriptInvoked = false
      ∧ (Handler cfg (some mail) run parseAddress).sendAttempted = false
      ∧ (Handler cfg (some mail) run parseAddress).submitted = none)
    ∧ (∀ sub, (Handler cfg (some mail) run parseAddress).submitted = some sub →
      headersGet sub.msg.Headers "sent-from-listless" = cfg.ListAddress) := by
  constructor
  · intro h
    have hb : (headersGet mail.Headers "sent-from-listless" == cfg.ListAddress) = true := by
      simp [h]
    simp [Handler, hb]
  · intro sub hsub
    by_cases hb : (headersGet mail.Headers "sent-from-listless" == cfg.ListAddress) = true
    · simp only [Handler, hb, if_true] at hsub
      simp at hsub
    · simp only [Handler, if_neg hb] at hsub
      rcases hpm : ProcessMail run with ⟨ok, err⟩
      rw [hpm] at hsub
      cases ok with
      | false =>
        cases err with
        | none => simp at hsub
        | some e => simp at hsub
      | true =>
        cases err with
        | some e => simp at hsub
        | none =>
          rcases hsend : (Email.Send { run.emOut with Headers := headersSet run.emOut.Headers "sent-from-listless" cfg.ListAddress } parseAddress [cfg.ListAddress]) with e2 | pr
          · rw [hsend] at hsub
            simp at hsub
          · obtain ⟨f2, t2⟩ := pr
            rw [hsend] at hsub
            simp only [Option.some.injEq] at hsub
            subst hsub
            exact headersGet_headersSet run.emOut.Headers "sent-from-listless"
              cfg.ListAddress

/-- ProcessMail yields the ok pair exactly when the script loaded, the
call succeeded, the third returned value is string-or-nil, and the second
returned value is the boolean true. -/
theorem ProcessMail_ok_iff (run : LuaRun) :
    ProcessMail run = (true, none)
    ↔ (run.loadErr = false ∧ run.callErr = false
      ∧ (run.ret3.isStr || run.ret3.isNil) = true
      ∧ run.ret2 = LuaValue.boolean true) := by
  rcases run with ⟨emo, le, ce, r2, r3⟩
  simp only [ProcessMail]
  cases le <;> cases ce <;> cases r3 <;> cases r2 <;>
    simp_all [LuaValue.isStr, LuaValue.isNil, LuaValue.isBool, LuaValue.isTrueBool]
  all_goals rename_i b; cases b <;> simp_all

/-- C2 (amended): on a parsed, non-self-loop message, the Engine reaches
the SMTP submission stage exactly when ProcessMail returns the ok pair,
that is when the script ran and returned a well-typed pair with the
boolean true; the content of a string error value is never consulted, so
a non-nil error string with ok true still submits. A well-typed false
drops the message silently, and a ProcessMail error is propagated with
nothing submitted. -/
theorem c2_submit_iff_ok_amended (cfg : Config) (mail : RawEmail) (run : LuaRun)
    (parseAddress : String → Option String)
    (hb : headersGet mail.Headers "sent-from-listless" ≠ cfg.ListAddress) :
    ((Handler cfg (some mail) run parseAddress).sendAttempted = true
      ↔ ProcessMail run = (true, none))
    ∧ (ProcessMail run = (true, none)
      ↔ (run.loadErr = false ∧ run.callErr = false
        ∧ (run.ret3.isStr || run.ret3.isNil) = true
        ∧ run.ret2 = LuaValue.boolean true))
    ∧ (ProcessMail run = (false, none) →
      (Handler cfg (some mail) run parseAddress).submitted = none
      ∧ (Handler cfg (some mail) run parseAddress).err = none)
    ∧ (∀ e, ProcessMail run = (false, some e) →
      (Handler cfg (some mail) run parseAddress).submitted = none
      ∧ (Handler cfg (some mail) run parseAddress).err = some e) := by
  have hbf : (headersGet mail.Headers "sent-from-listless" == cfg.ListAddress) = false := by
    simp [hb]
  refine ⟨?_, ProcessMail_ok_iff run, ?_, ?_⟩
  · simp only [Handler, hbf, Bool.false_eq_true, if_false]
    rcases hpm : ProcessMail run with ⟨ok, err⟩
    cases ok with
    | false =>
      cases err with
      | none => simp
      | some e => simp
    | true =>
      cases err with
      | some e => simp
      | none =>
        rcases hsend : (Email.Send { run.emOut with Headers := headersSet run.emOut.Headers "sent-from-listless" cfg.ListAddress } parseAddress [cfg.ListAddress]) with e2 | pr
        · simp [hsend]
        · obtain ⟨f2, t2⟩ := pr
          simp [hsend]
  · intro hpm
    simp only [Handler, hbf, Bool.false_eq_true, if_false, hpm]
    exact ⟨trivial, trivial⟩
  · intro e hpm
    simp only [Handler, hbf, Bool.false_eq_true, if_false, hpm]
    exact ⟨trivial, trivial⟩

/- ### Concrete instances used by witnesses and counterexamples -/

def cfgListX : Config :=
  { ListAddress := "list@x.com"
    SMTPUsername := "listless"
    SMTPPassword := "pw"
    SMTPHost := "x.com"
    smtpAddr := "x.com:465"
    PollFrequency := 60
    MessageFrequency := 1 }

/-- An inbound message already stamped by the list itself. -/
def selfLoopRawEmail : RawEmail :=
  { From := "list@x.com"
    To := ["list@x.com"]
    Cc := []
    Bcc := []
    Headers := [("sent-from-listless", "list@x.com")] }

/-- An ordinary inbound message without the self-loop header. -/
def normalRawEmail : RawEmail :=
  { From := "Alice <alice@x.com>"
    To := ["list@x.com"]
    Cc := []
    Bcc := []
    Headers := [] }

/-- Message state produced by a listifying script run: To is the list
address and a subscriber sits in Bcc. -/
def goodOutEmail : Email :=
  { From := "alice@x.com"
    To := ["list@x.com"]
    Cc := []
    Bcc := ["bob@x.com"]
    Headers := []
    inRecipientLists := ["list@x.com", "bob@x.com"]
    Sender := "alice@x.com" }

/-- A clean script run: well-typed values, send true, nil error. -/
def okLuaRun : LuaRun :=
  { emOut := goodOutEmail
    loadErr := false
    callErr := false
    ret2 := LuaValue.boolean true
    ret3 := LuaValue.nil }

/-- A script run returning send true together with a string error value. -/
def errStringLuaRun : LuaRun :=
  { emOut := goodOutEmail
    loadErr := false
    callErr := false
    ret2 := LuaValue.boolean true
    ret3 := LuaValue.str "boom" }

/-- The submission the engine produces from goodOutEmail under cfgListX. -/
def expectedSubmission : Submission :=
  { fromAddr := "alice@x.com"
    rcpts := ["bob@x.com"]
    msg := { goodOutEmail with
      Headers := headersSet goodOutEmail.Headers "sent-from-listless" "list@x.com" } }

/-- Witness for C1: the theorem applied to a concrete self-loop message
(first half) and to a concrete submitted message (second half). -/
theorem c1_selfloop_and_stamp_witness :
    ((Handler cfgListX (some selfLoopRawEmail) okLuaRun Option.some).scriptInvoked = false
      ∧ (Handler cfgListX (some selfLoopRawEmail) okLuaRun Option.some).sendAttempted = false
      ∧ (Handler cfgListX (some selfLoopRawEmail) okLuaRun Option.some).submitted = none)
    ∧ headersGet expectedSubmission.msg.Headers "sent-from-listless"
        = cfgListX.ListAddress :=
  ⟨(c1_selfloop_and_stamp cfgListX selfLoopRawEmail okLuaRun Option.some).1 (by decide),
    (c1_selfloop_and_stamp cfgListX normalRawEmail okLuaRun Option.some).2
      expectedSubmission (by decide)⟩

/-- Counterexample for C2 as stated: the script returns the boolean true
together with the non-nil string error value boom, and the engine still
submits the message; the claim required any non-nil error value to
suppress submission. -/
theorem c2_error_string_still_submits_counterexample :
    errStringLuaRun.ret3 = LuaValue.str "boom"
    ∧ errStringLuaRun.ret2 = LuaValue.boolean true
    ∧ (Handler cfgListX (some normalRawEmail) errStringLuaRun Option.some).submitted
        = some expectedSubmission
    ∧ (Handler cfgListX (some normalRawEmail) errStringLuaRun Option.some).err = none := by
  decide

/-- Witness for C2: the amended theorem applied at a concrete
non-self-loop input. -/
theorem c2_submit_iff_ok_witness :
    (Handler cfgListX (some normalRawEmail) okLuaRun Option.some).sendAttempted = true
      ↔ ProcessMail okLuaRun = (true, none) :=
  (c2_submit_iff_ok_amended cfgListX normalRawEmail okLuaRun Option.some (by decide)).1

deriving instance DecidableEq for Except

/- ### C7: Email.Send -/

theorem mem_sendToList_iff (em : Email) (excludeEmails : List String) (x : String) :
    x ∈ sendToList em excludeEmails
    ↔ x ∈ em.inRecipientLists ∧ x ∉ excludedSet excludeEmails := by
  simp [sendToList, List.mem_filter, List.contains, List.elem_iff]

/-- C7 (amended): Send computes the send-to list as the roster set minus
the normalised non-empty exclusions; when that list is empty it fails
with the missing-recipients error and submits nothing; otherwise,
provided the From address is non-empty and every address (and From)
passes mail.ParseAddress, it hands smtp.SendMail exactly the
ParseAddress-resolved form of that list. An empty From or a parse
failure likewise aborts with an error and nothing is submitted, which
the original claim did not allow for. -/
theorem c7_send_amended (em : Email) (parseAddress : String → Option String)
    (excludeEmails : List String) :
    (∀ x, x ∈ sendToList em excludeEmails
      ↔ x ∈ em.inRecipientLists ∧ x ∉ excludedSet excludeEmails)
    ∧ (sendToList em excludeEmails = [] →
      em.Send parseAddress excludeEmails = Except.error GoError.missingRecipients)
    ∧ (∀ f tos, em.Send parseAddress excludeEmails = Except.ok (f, tos) →
      em.From ≠ "" ∧ parseAddress em.From = some f
      ∧ parseAllAddrs parseAddress (sendToList em excludeEmails) = some tos) := by
  refine ⟨mem_sendToList_iff em excludeEmails, ?_, ?_⟩
  · intro hempty
    unfold Email.Send
    rw [hempty]
    simp [parseAllAddrs]
  · intro f tos hok
    simp only [Email.Send] at hok
    split at hok
    · simp at hok
    · rename_i to2 hp
      by_cases hcond : (em.From == "" || to2.isEmpty) = true
      · rw [if_pos hcond] at hok
        simp at hok
      · rw [if_neg hcond] at hok
        have hFrom : em.From ≠ "" := by
          intro hF
          apply hcond
          simp [hF]
        split at hok
        · simp at hok
        · rename_i f2 hpf
          simp only [Except.ok.injEq, Prod.mk.injEq] at hok
          obtain ⟨hf, ht⟩ := hok
          refine ⟨hFrom, ?_, ?_⟩
          · rw [hpf, hf]
          · rw [hp, ht]

/-- Message with recipients in the roster but an empty From line. -/
def noFromEmail : Email :=
  { From := ""
    To := []
    Cc := []
    Bcc := []
    Headers := []
    inRecipientLists := ["a@x.com"]
    Sender := "" }

/-- Counterexample for C7 as stated: the computed send-to list is
nonempty, yet Send aborts with the same error and submits nothing,
because the From line is empty; the original claim promised a submission
to exactly the computed list whenever it is nonempty. -/
theorem c7_empty_from_counterexample :
    sendToList noFromEmail [] ≠ []
    ∧ noFromEmail.Send Option.some [] = Except.error GoError.missingRecipients := by
  decide

/-- Message with a From line and one subscriber in the roster. -/
def goodSendEmail : Email :=
  { From := "alice@x.com"
    To := []
    Cc := []
    Bcc := []
    Headers := []
    inRecipientLists := ["b@x.com"]
    Sender := "alice@x.com" }

/-- Message with an empty roster. -/
def emptyRosterEmail : Email :=
  { From := "alice@x.com"
    To := []
    Cc := []
    Bcc := []
    Headers := []
    inRecipientLists := []
    Sender := "alice@x.com" }

/-- Witness for C7: the amended theorem applied at concrete inputs, once
on an empty computed list and once on a successful submission. -/
theorem c7_send_witness :
    emptyRosterEmail.Send Option.some [] = Except.error GoError.missingRecipients
    ∧ (goodSendEmail.From ≠ "" ∧ Option.some goodSendEmail.From = some "alice@x.com"
      ∧ parseAllAddrs Option.some (sendToList goodSendEmail []) = some ["b@x.com"]) :=
  ⟨(c7_send_amended emptyRosterEmail Option.some []).2.1 (by decide),
    (c7_send_amended goodSendEmail Option.some []).2.2 "alice@x.com" ["b@x.com"]
      (by decide)⟩

/- ### C9: delivery loop sleeps -/

/-- C9 (amended): the loop sleeps PollFrequency after an empty fetch and
after any error; it sleeps MessageFrequency after every error-free cycle
that delivered a message, whether or not that message was submitted — a
handler drop still returns nil to DeliverOne and therefore still earns
the MessageFrequency sleep, which the original claim denied. -/
theorem c9_sleep_amended (fetched : Option HandlerResult) :
    (fetched = none → cycleSleep fetched = SleepKind.pollFreq)
    ∧ (∀ r, fetched = some r → r.err.isSome = true →
      cycleSleep fetched = SleepKind.pollFreq)
    ∧ (∀ r, fetched = some r → r.err = none →
      cycleSleep fetched = SleepKind.messageFreq) := by
  refine ⟨?_, ?_, ?_⟩
  · intro h
    subst h
    rfl
  · intro r h he
    subst h
    rcases hre : r.err with _ | e
    · rw [hre] at he
      simp at he
    · simp [cycleSleep, deliverOneOutcome, deliveryLoopSleep, hre]
  · intro r h he
    subst h
    simp [cycleSleep, deliverOneOutcome, deliveryLoopSleep, he]

/-- Handler outcome of a cycle that failed with a parse error. -/
def errCycleResult : HandlerResult :=
  { scriptInvoked := false
    sendAttempted := false
    submitted := none
    err := some GoError.parseFailed }

/-- Handler outcome of a cycle that processed a message without error. -/
def dropCycleResult : HandlerResult :=
  { scriptInvoked := true
    sendAttempted := false
    submitted := none
    err := none }

/-- Witness for C9: the amended theorem applied to an empty fetch, an
erroring cycle, and a delivered cycle. -/
theorem c9_sleep_witness :
    cycleSleep none = SleepKind.pollFreq
    ∧ cycleSleep (some errCycleResult) = SleepKind.pollFreq
    ∧ cycleSleep (some dropCycleResult) = SleepKind.messageFreq :=
  ⟨(c9_sleep_amended none).1 rfl,
    (c9_sleep_amended _).2.1 _ rfl (by decide),
    (c9_sleep_amended _).2.2 _ rfl rfl⟩

/-- Counterexample for C9 as stated: a cycle whose fetched message is
dropped by the self-loop filter submits nothing, yet the loop sleeps
MessageFrequency, because the handler returned nil and DeliverOne counts
the message as delivered. -/
theorem c9_drop_gets_message_sleep_counterexample :
    (Handler cfgListX (some selfLoopRawEmail) okLuaRun Option.some).submitted = none
    ∧ (Handler cfgListX (some selfLoopRawEmail) okLuaRun Option.some).sendAttempted = false
    ∧ cycleSleep (some (Handler cfgListX (some selfLoopRawEmail) okLuaRun Option.some))
        = SleepKind.messageFreq := by
  decide

/- ### C8: destroyed KV handles -/

def kvDemoBuckets : KVBuckets := [("b", [("k", "v")])]

def kvDemoHandle : ListlessKVStore := { destroyed := false, BucketName := "b" }

/-- C8 evaluation: after Destroy, the handle is flagged and the child
bucket is gone; Store, Retrieve and Delete on the destroyed handle take
the guarded warning path, return zero values and leave the store
untouched — but Keys performs no destroyed check at all: it reaches the
deleted (nil) bucket and panics instead of returning a zero value with a
warning, contradicting the claim and the Destroy doc comment. -/
theorem c8_keys_unguarded_after_destroy :
    ((kvDemoHandle.Destroy kvDemoBuckets).1.destroyed = true
      ∧ (kvDemoHandle.Destroy kvDemoBuckets).2.1 = [])
    ∧ ((kvDemoHandle.Destroy kvDemoBuckets).1.Store
        (kvDemoHandle.Destroy kvDemoBuckets).2.1 "k" "v"
        = ((kvDemoHandle.Destroy kvDemoBuckets).2.1, KVEffect.warnedDestroyed))
    ∧ ((kvDemoHandle.Destroy kvDemoBuckets).1.Retrieve
        (kvDemoHandle.Destroy kvDemoBuckets).2.1 "k"
        = ("", KVEffect.warnedDestroyed))
    ∧ ((kvDemoHandle.Destroy kvDemoBuckets).1.Delete
        (kvDemoHandle.Destroy kvDemoBuckets).2.1 "k"
        = ((kvDemoHandle.Destroy kvDemoBuckets).2.1, KVEffect.warnedDestroyed))
    ∧ ((kvDemoHandle.Destroy kvDemoBuckets).1.Keys
        (kvDemoHandle.Destroy kvDemoBuckets).2.1
        = ([], KVEffect.nilBucketPanic))
    ∧ KVEffect.nilBucketPanic ≠ KVEffect.warnedDestroyed := by
  decide

/- ### C3, C4, C10: transactions -/

/-- A transaction that expired one second before the probe time 100. -/
def expiredDemoTransaction : MailTransaction :=
  { Permitted := ["mod@x.com"]
    Persists := false
    RefCode := "r"
    Expires := 99
    ScriptName := "script"
    ScriptHook := "hook" }

/-- A live transaction with an empty Permitted list. -/
def emptyPermittedTransaction : MailTransaction :=
  { Permitted := []
    Persists := false
    RefCode := "r"
    Expires := 1000
    ScriptName := "script"
    ScriptHook := "hook" }

/-- A message whose sender is the permitted moderator address. -/
def moderatorSenderEmail : Email :=
  { From := "Mod <mod@x.com>"
    To := []
    Cc := []
    Bcc := []
    Headers := []
    inRecipientLists := []
    Sender := "mod@x.com" }

/-- Stand-in for the sha256 digest of a secret. -/
def demoHashSecret (secret : String) : String := "HASH-" ++ secret

/-- Decoder standing in for a successful JSON decode of the stored
transaction bytes. -/
def demoDecode (_data : String) : Except GoError MailTransaction :=
  Except.ok expiredDemoTransaction

/-- Store holding the expired transaction under the hashed secret. -/
def demoTransBucket : TransBucket := [("HASH-s", "JSONBYTES")]

/-- C3 evaluation at the failing input: the expired transaction is
present in the store, Validate correctly rejects it for any sender
(even a permitted one), but GetTransaction does not report the promised
not-found or expired error — it fails with the invalid-unmarshal error
produced by decoding into the nil pointer, and the stored value is never
inspected. -/
theorem c3_expired_lookup_divergence :
    expiredDemoTransaction.isExpired 100 = true
    ∧ expiredDemoTransaction.isPermitted moderatorSenderEmail.Sender = true
    ∧ expiredDemoTransaction.Validate 100 moderatorSenderEmail = false
    ∧ transBucketGet demoTransBucket (demoHashSecret "s") = some "JSONBYTES"
    ∧ GetTransaction demoTransBucket demoHashSecret demoDecode "s"
        = (none, some GoError.invalidUnmarshal)
    ∧ GoError.invalidUnmarshal ≠ GoError.transactionNotFound
    ∧ GoError.invalidUnmarshal ≠ GoError.expiredTransaction := by
  decide

/-- C4 evaluation at the failing input: a live transaction whose
Permitted list is empty rejects every sender, although both the spec and
the Permitted field doc comment promise that an empty list admits
anyone. -/
theorem c4_empty_permitted_rejects :
    emptyPermittedTransaction.Permitted = []
    ∧ emptyPermittedTransaction.isExpired 100 = false
    ∧ emptyPermittedTransaction.Validate 100 moderatorSenderEmail = false := by
  decide

/-- C10: for every store, hash function, decoder and secret,
GetTransaction returns the nil transaction pointer together with a
non-nil error: a miss yields the not-found error and a hit feeds the
stored bytes into json.Unmarshal with the nil named-return pointer,
which always fails; no call can ever yield the stored transaction. -/
theorem c10_gettransaction_always_fails (transactions : TransBucket)
    (hashSecret : String → String)
    (decode : String → Except GoError MailTransaction) (secret : String) :
    (GetTransaction transactions hashSecret decode secret).1 = none
    ∧ (GetTransaction transactions hashSecret decode secret).2.isSome = true := by
  unfold GetTransaction
  cases transBucketGet transactions (hashSecret secret) <;>
    simp [jsonUnmarshal]
